import Mathlib

/-!
Shallow embedding of the scheduling core of the flow-api repository
(`services/schedulerService.js`): the `SchedulerService` class with its
trigger map (`jobs`), the firing handler `executeScheduledFlow`, the cron
translation `toCronExpression`, registration, reload and the scheduler
bootstrap.  Persistence and the flow executor are modelled as oracles: an
`Env` record fixes, for one firing, what the store returns on the read,
whether each save raises, whether the populated flow exists, and whether
the flow executor raises.  `calculateNextExecution` lives in a module
outside the embedded sources and is specified as a pure function of the
schedule and the current instant, so it is passed as a parameter.
-/

/-- Status stored in `lastExecutionStatus`: `success`, `failed`, or unset. -/
inductive ExecStatus where
  | success
  | failed
  | unset
deriving DecidableEq

/-- The persisted `FlowSchedule` record, restricted to the fields the
scheduler reads or writes.  Timestamps are abstract instants (`Nat`). -/
structure Schedule where
  id : String
  enabled : Bool
  isCurrentlyRunning : Bool
  executionCount : Nat
  maxExecutions : Option Nat
  consecutiveFailures : Nat
  lastExecutionStatus : ExecStatus
  lastExecutedAt : Option Nat
  nextExecutionAt : Option Nat
  pausedReason : Option String
  currentExecutionId : Option String
  scheduleType : String
  cronExpression : String
  intervalValue : Nat
  intervalUnit : String
  time : String
  daysOfWeek : List Nat
  dayOfMonth : Nat
  timezone : String
deriving DecidableEq

/-- `this.jobs.has(scheduleId)` on the `Map<scheduleId, cronTask>`;
task handles are abstract `Nat`s. -/
def hasJob (jobs : List (String × Nat)) (id : String) : Bool :=
  jobs.any (fun p => p.1 == id)

/-- `unregisterSchedule`: stop and drop the trigger handle if present;
idempotent removal (`task.stop()` has no observable effect here). -/
def unregisterSchedule (jobs : List (String × Nat)) (id : String) :
    List (String × Nat) :=
  jobs.filter (fun p => p.1 != id)

/-- `Map.set`: replace the binding in place when the key exists,
otherwise append a new binding. -/
def mapSet (jobs : List (String × Nat)) (id : String) (h : Nat) :
    List (String × Nat) :=
  if hasJob jobs id then
    jobs.map (fun p => if p.1 == id then (id, h) else p)
  else
    jobs ++ [(id, h)]

/-- Number of live trigger registrations held for one schedule id. -/
def countId (jobs : List (String × Nat)) (id : String) : Nat :=
  (jobs.filter (fun p => p.1 == id)).length

/-- In-memory scheduler state: the trigger map, a supply of fresh task
handles, and the `initialized` guard flag of the singleton. -/
structure SchedState where
  jobs : List (String × Nat)
  nextHandle : Nat
  initDone : Bool
deriving DecidableEq

/-- Split a character list at every occurrence of `sep`, as
`String.prototype.split` does with a single-character separator. -/
def splitChar (sep : Char) : List Char → List Char → List (List Char)
  | acc, [] => [acc.reverse]
  | acc, c :: rest =>
    if c = sep then acc.reverse :: splitChar sep [] rest
    else splitChar sep (c :: acc) rest

/-- `time.split(':')` of the source. -/
def jsSplit (s : String) (sep : Char) : List String :=
  (splitChar sep [] s.data).map (fun l => String.mk l)

/-- Hour/minute destructuring of `schedule.time.split(':')`; a missing
component destructures to the string a template renders for undefined. -/
def timeParts (time : String) : String × String :=
  let parts := jsSplit time ':'
  (parts.getD 0 "undefined", parts.getD 1 "undefined")

/-- `toCronExpression(schedule)`: translate the declarative recurrence
into a cron-syntax string; throws on an unknown type or interval unit. -/
def toCronExpression (s : Schedule) : Except String String :=
  if s.scheduleType = "cron" then
    .ok s.cronExpression
  else if s.scheduleType = "interval" then
    if s.intervalUnit = "minutes" then
      .ok ("*/" ++ toString s.intervalValue ++ " * * * *")
    else if s.intervalUnit = "hours" then
      .ok ("0 */" ++ toString s.intervalValue ++ " * * *")
    else if s.intervalUnit = "days" then
      .ok ("0 0 */" ++ toString s.intervalValue ++ " * *")
    else
      .error ("Unknown interval unit: " ++ s.intervalUnit)
  else if s.scheduleType = "daily" then
    let tp := timeParts s.time
    .ok (tp.2 ++ " " ++ tp.1 ++ " * * *")
  else if s.scheduleType = "weekly" then
    let tp := timeParts s.time
    let days := String.intercalate "," (s.daysOfWeek.map toString)
    .ok (tp.2 ++ " " ++ tp.1 ++ " * * " ++ days)
  else if s.scheduleType = "monthly" then
    let tp := timeParts s.time
    .ok (tp.2 ++ " " ++ tp.1 ++ " " ++ toString s.dayOfMonth ++ " * *")
  else
    .error ("Unknown schedule type: " ++ s.scheduleType)

/-- `registerSchedule(schedule)`: remove any existing trigger for the id,
translate to a cron expression (propagating its error), seed
`nextExecutionAt` when unset, create the task and store its handle.
Returns the thrown error or unit, the new scheduler state, and the
(possibly updated) persisted schedule; the seeding save is modelled as
succeeding since only the trigger map matters to the registration
claims. -/
def registerSchedule (calcNext : Schedule → Nat → Nat) (st : SchedState)
    (s : Schedule) (now : Nat) :
    Except String Unit × SchedState × Schedule :=
  let st1 :=
    if hasJob st.jobs s.id then
      { st with jobs := unregisterSchedule st.jobs s.id }
    else st
  match toCronExpression s with
  | .error e => (.error e, st1, s)
  | .ok _ =>
    let s1 :=
      if s.nextExecutionAt = none then
        { s with nextExecutionAt := some (calcNext s now) }
      else s
    let st2 :=
      { st1 with
        jobs := mapSet st1.jobs s.id st1.nextHandle,
        nextHandle := st1.nextHandle + 1 }
    (.ok (), st2, s1)

/-- Line 121: `schedule.isCurrentlyRunning = true` (the in-memory mark
made just before the "running" save). -/
def markRunning (s : Schedule) : Schedule :=
  { s with isCurrentlyRunning := true }

/-- Lines 183-187 of the catch block: stamp the failure onto the
in-memory schedule (increment `consecutiveFailures`, clear the running
flag and the execution id). -/
def failedUpdate (now : Nat) (m : Schedule) : Schedule :=
  { m with
    lastExecutedAt := some now,
    lastExecutionStatus := .failed,
    consecutiveFailures := m.consecutiveFailures + 1,
    isCurrentlyRunning := false,
    currentExecutionId := none }

/-- Lines 189-198: after stamping the failure, either pause the schedule
(three or more consecutive failures) or recompute `nextExecutionAt`.
Returns the updated record and whether `unregisterSchedule` was called. -/
def recordFailure (calcNext : Schedule → Nat → Nat) (now : Nat)
    (m : Schedule) (errMsg : String) : Schedule × Bool :=
  let m1 := failedUpdate now m
  if 3 ≤ m1.consecutiveFailures then
    ({ m1 with
       enabled := false,
       pausedReason := some ("Paused after " ++ toString m1.consecutiveFailures
         ++ " consecutive failures: " ++ errMsg) }, true)
  else
    ({ m1 with nextExecutionAt := some (calcNext m1 now) }, false)

/-- Oracle for one firing of `executeScheduledFlow(scheduleId)`: what the
store read returns (`stored`, or `readError` when `findById` raises),
whether the populated flow exists, whether the flow executor raises
(`execError`), and whether each of the three save sites raises
(`saveRunError` — the mark-running save, `saveFinalError` — the success
update save, `saveFailError` — the save inside the catch block).  `jobs`
is the live trigger map at fire time. -/
structure Env where
  scheduleId : String
  stored : Option Schedule
  readError : Option String
  flowExists : Bool
  execError : Option String
  saveRunError : Option String
  saveFinalError : Option String
  saveFailError : Option String
  jobs : List (String × Nat)
  now : Nat
deriving DecidableEq

/-- Observable outcome of one firing: `raised` is the exception escaping
the handler (none when it returns normally), `store` the persisted record
for this schedule after the call, `executorCalled` whether the flow
executor was invoked (only it creates Execution records), `unregistered`
whether `unregisterSchedule` ran, and `jobs` the trigger map after. -/
structure FireResult where
  raised : Option String
  store : Option Schedule
  executorCalled : Bool
  unregistered : Bool
  jobs : List (String × Nat)
deriving DecidableEq

/-- The catch block (lines 178-202): `m` is the in-memory schedule at the
point the exception `errMsg` was raised, `db` the record persisted so
far, `unregAlready` whether the success path already unregistered the
trigger before its save raised.  The save at line 200 may itself raise
(`saveFailError`), in which case the exception escapes the handler. -/
def catchBranch (calcNext : Schedule → Nat → Nat) (env : Env)
    (m : Schedule) (errMsg : String) (db : Option Schedule)
    (execCalled unregAlready : Bool) : FireResult :=
  let fr := recordFailure calcNext env.now m errMsg
  let unregAll := unregAlready || fr.2
  let jobs1 :=
    if unregAll then unregisterSchedule env.jobs env.scheduleId else env.jobs
  match env.saveFailError with
  | some e2 =>
    { raised := some e2, store := db, executorCalled := execCalled,
      unregistered := unregAll, jobs := jobs1 }
  | none =>
    { raised := none, store := some fr.1, executorCalled := execCalled,
      unregistered := unregAll, jobs := jobs1 }

/-- Lines 159-165: the success update on the in-memory schedule `m`
(which carries the running mark): stamp the success, increment the
count, reset failures, recompute `nextExecutionAt` (computed before the
running flag is cleared, as in the source), clear running state. -/
def successUpdate (calcNext : Schedule → Nat → Nat) (now : Nat)
    (m : Schedule) : Schedule :=
  let m1 :=
    { m with
      lastExecutedAt := some now,
      executionCount := m.executionCount + 1,
      lastExecutionStatus := .success,
      consecutiveFailures := 0 }
  { m1 with
    nextExecutionAt := some (calcNext m1 now),
    isCurrentlyRunning := false,
    currentExecutionId := none }

/-- Line 168: `schedule.maxExecutions && schedule.executionCount >=
schedule.maxExecutions` — a `maxExecutions` of 0 is falsy in the source
and never triggers the pause. -/
def hitMaxExecutions (m : Schedule) : Bool :=
  match m.maxExecutions with
  | none => false
  | some mx => (mx != 0) && decide (mx ≤ m.executionCount)

/-- Lines 167-173: pause the schedule when the execution cap is reached;
returns the updated record and whether the cap fired (which also
triggers `unregisterSchedule`). -/
def applyMaxCap (m2 : Schedule) : Schedule × Bool :=
  if hitMaxExecutions m2 then
    ({ m2 with
       enabled := false,
       pausedReason := some "Max executions reached" }, true)
  else (m2, false)

/-- `executeScheduledFlow(scheduleId)` (lines 98-203): the firing
handler.  Reads the schedule fresh, applies the not-found/disabled and
concurrency guards, marks it running, checks the flow, runs the
executor, and records the success or failure outcome; every raise inside
the `try` lands in `catchBranch`. -/
def executeScheduledFlow (calcNext : Schedule → Nat → Nat) (env : Env) :
    FireResult :=
  match env.readError with
  | some _ =>
    { raised := none, store := env.stored, executorCalled := false,
      unregistered := false, jobs := env.jobs }
  | none =>
    match env.stored with
    | none =>
      { raised := none, store := none, executorCalled := false,
        unregistered := false, jobs := env.jobs }
    | some s =>
      if s.enabled = false then
        { raised := none, store := some s, executorCalled := false,
          unregistered := false, jobs := env.jobs }
      else if s.isCurrentlyRunning then
        { raised := none, store := some s, executorCalled := false,
          unregistered := false, jobs := env.jobs }
      else
        let m := markRunning s
        match env.saveRunError with
        | some e => catchBranch calcNext env m e env.stored false false
        | none =>
          let db := some m
          if env.flowExists = false then
            catchBranch calcNext env m "Flow not found" db false false
          else
            match env.execError with
            | some e => catchBranch calcNext env m e db true false
            | none =>
              let m2 := successUpdate calcNext env.now m
              let mc := applyMaxCap m2
              let jobs1 :=
                if mc.2 then unregisterSchedule env.jobs env.scheduleId
                else env.jobs
              match env.saveFinalError with
              | some e => catchBranch calcNext env mc.1 e db true mc.2
              | none =>
                { raised := none, store := some mc.1, executorCalled := true,
                  unregistered := mc.2, jobs := jobs1 }

/-- Result of `initialize()`: the error it rethrew (if any), the
scheduler state after, whether the store was queried, and how many
trigger registrations were attempted. -/
structure InitResult where
  error : Option String
  st : SchedState
  queried : Bool
  registrations : Nat
deriving DecidableEq

/-- The registration loop of `initialize()` (lines 32-36): register each
loaded schedule whose `flowId` populated; the first registration error
aborts the loop and is rethrown. -/
def registerAll (calcNext : Schedule → Nat → Nat) (st : SchedState)
    (l : List (Schedule × Bool)) (now : Nat) :
    Option String × SchedState × Nat :=
  match l with
  | [] => (none, st, 0)
  | (s, hasFlow) :: rest =>
    if hasFlow then
      match registerSchedule calcNext st s now with
      | (.error e, st1, _) => (some e, st1, 1)
      | (.ok _, st1, _) =>
        let r := registerAll calcNext st1 rest now
        (r.1, r.2.1, r.2.2 + 1)
    else
      registerAll calcNext st rest now

/-- `initialize()` (lines 17-44): guarded by the `initialized` flag; on
the first call queries the active schedules (`loaded`, with a flag per
schedule for whether its flow populated; `queryError` when the query
itself raises) and registers them; sets the flag only on full success
and rethrows the first error otherwise. -/
def initScheduler (calcNext : Schedule → Nat → Nat)
    (loaded : List (Schedule × Bool)) (queryError : Option String)
    (st : SchedState) (now : Nat) : InitResult :=
  if st.initDone then
    { error := none, st := st, queried := false, registrations := 0 }
  else
    match queryError with
    | some e => { error := some e, st := st, queried := true, registrations := 0 }
    | none =>
      let r := registerAll calcNext st loaded now
      match r.1 with
      | some e =>
        { error := some e, st := r.2.1, queried := true, registrations := r.2.2 }
      | none =>
        { error := none, st := { r.2.1 with initDone := true },
          queried := true, registrations := r.2.2 }

/-- `reloadSchedule(scheduleId)` (lines 253-265): re-read the schedule
(`stored` is what `findById` returns); throw when missing; re-register
when enabled, unregister when disabled. -/
def reloadSchedule (calcNext : Schedule → Nat → Nat) (st : SchedState)
    (scheduleId : String) (stored : Option Schedule) (now : Nat) :
    Except String Unit × SchedState :=
  match stored with
  | none => (.error "Schedule not found", st)
  | some s =>
    if s.enabled then
      let r := registerSchedule calcNext st s now
      (r.1, r.2.1)
    else
      (.ok (), { st with jobs := unregisterSchedule st.jobs scheduleId })

/-- A representative enabled daily schedule used by concrete witnesses. -/
def sampleSchedule : Schedule :=
  { id := "s1", enabled := true, isCurrentlyRunning := false,
    executionCount := 0, maxExecutions := none, consecutiveFailures := 0,
    lastExecutionStatus := .unset, lastExecutedAt := none,
    nextExecutionAt := some 100, pausedReason := none,
    currentExecutionId := none, scheduleType := "daily",
    cronExpression := "", intervalValue := 1, intervalUnit := "minutes",
    time := "07:30", daysOfWeek := [], dayOfMonth := 1, timezone := "UTC" }

/-- A firing environment in which everything behaves: the schedule is
found, its flow exists, and neither the executor nor any save raises. -/
def sampleEnv : Env :=
  { scheduleId := "s1", stored := some sampleSchedule, readError := none,
    flowExists := true, execError := none, saveRunError := none,
    saveFinalError := none, saveFailError := none,
    jobs := [("s1", 5)], now := 50 }

/-- A concrete next-occurrence calculator for witnesses (the claims hold
for every calculator, which the theorems quantify over). -/
def calc0 : Schedule → Nat → Nat := fun _ n => n + 60


theorem countId_eq_zero_of_hasJob_false (jobs : List (String × Nat))
    (id : String) (h : hasJob jobs id = false) : countId jobs id = 0 := by
  induction jobs with
  | nil => rfl
  | cons p rest ih =>
    simp only [hasJob, List.any_cons, Bool.or_eq_false_iff] at h
    simp only [countId, List.filter_cons, h.1]
    exact ih (by simp [hasJob, h.2])

theorem hasJob_unregisterSchedule (jobs : List (String × Nat)) (id : String) :
    hasJob (unregisterSchedule jobs id) id = false := by
  induction jobs with
  | nil => rfl
  | cons p rest ih =>
    by_cases h : p.1 = id
    · simpa [unregisterSchedule, List.filter_cons, h] using ih
    · simpa [unregisterSchedule, hasJob, List.filter_cons, List.any_cons, h]
        using ih

theorem countId_unregisterSchedule (jobs : List (String × Nat)) (id : String) :
    countId (unregisterSchedule jobs id) id = 0 :=
  countId_eq_zero_of_hasJob_false _ _ (hasJob_unregisterSchedule jobs id)

theorem countId_append (a b : List (String × Nat)) (id : String) :
    countId (a ++ b) id = countId a id + countId b id := by
  simp [countId, List.filter_append]

theorem countId_singleton_self (id : String) (h : Nat) :
    countId [(id, h)] id = 1 := by
  simp [countId, List.filter]

theorem countId_mapSet_not_has (jobs : List (String × Nat)) (id : String)
    (h : Nat) (hh : hasJob jobs id = false) :
    countId (mapSet jobs id h) id = 1 := by
  simp only [mapSet, hh, if_neg Bool.false_ne_true, countId_append,
    countId_singleton_self, countId_eq_zero_of_hasJob_false jobs id hh]

theorem register_ok_countId_one (calcNext : Schedule → Nat → Nat)
    (st : SchedState) (s : Schedule) (now : Nat)
    (h : (registerSchedule calcNext st s now).1 = .ok ()) :
    countId (registerSchedule calcNext st s now).2.1.jobs s.id = 1 := by
  rcases hc : toCronExpression s with e | c
  · simp [registerSchedule, hc] at h
  · have hfree : hasJob (if hasJob st.jobs s.id then
        { st with jobs := unregisterSchedule st.jobs s.id } else st).jobs s.id
        = false := by
      by_cases hj : hasJob st.jobs s.id
      · simp [hj, hasJob_unregisterSchedule]
      · simp only [Bool.not_eq_true] at hj
        simp [hj]
    simp only [registerSchedule, hc]
    exact countId_mapSet_not_has _ _ _ hfree

/-- C6: registering the same schedule id twice leaves exactly one live
trigger for that id — the second registration supersedes the first and
never duplicates. -/
theorem register_twice_single_trigger (calcNext : Schedule → Nat → Nat)
    (st : SchedState) (s1 s2 : Schedule) (now1 now2 : Nat)
    (hid : s1.id = s2.id)
    (h1 : (registerSchedule calcNext st s1 now1).1 = .ok ())
    (h2 : (registerSchedule calcNext (registerSchedule calcNext st s1 now1).2.1
            s2 now2).1 = .ok ()) :
    countId (registerSchedule calcNext (registerSchedule calcNext st s1 now1).2.1
      s2 now2).2.1.jobs s2.id = 1 :=
  register_ok_countId_one calcNext _ s2 now2 h2

/-- Concrete run of the double-registration theorem: registering the
sample daily schedule twice from the empty state leaves one trigger. -/
theorem register_twice_single_trigger_witness :
    countId (registerSchedule calc0
      (registerSchedule calc0 ⟨[], 0, false⟩ sampleSchedule 1).2.1
      sampleSchedule 2).2.1.jobs sampleSchedule.id = 1 :=
  register_twice_single_trigger calc0 ⟨[], 0, false⟩ sampleSchedule
    sampleSchedule 1 2 rfl rfl rfl

/-- The sample schedule with the monthly recurrence of the claim. -/
def monthlySample : Schedule :=
  { sampleSchedule with
    scheduleType := "monthly",
    time := "00:05",
    dayOfMonth := 1 }

/-- C7 counterexample: for monthly(time="00:05", dayOfMonth=1) the
translation returns "05 00 1 * *" — the hour and minute keep the leading
zeros of the stored time string — and not the claimed "5 0 1 * *". -/
theorem monthly_cron_literal_cex :
    toCronExpression monthlySample = .ok "05 00 1 * *" ∧
    toCronExpression monthlySample ≠ .ok "5 0 1 * *" := by
  constructor
  · rfl
  · intro h
    rw [show toCronExpression monthlySample = .ok "05 00 1 * *" from rfl] at h
    injection h with h2
    exact absurd h2 (by decide)

/-- C7 amended: for every schedule with scheduleType="monthly",
time="00:05" and dayOfMonth=1, the translation returns exactly
"05 00 1 * *" (semantically minute 5, hour 0, day-of-month 1). -/
theorem monthly_cron_expression (s : Schedule)
    (ht : s.scheduleType = "monthly") (htime : s.time = "00:05")
    (hd : s.dayOfMonth = 1) :
    toCronExpression s = .ok "05 00 1 * *" := by
  simp only [toCronExpression, ht, htime, hd]
  rfl

/-- Concrete run of the amended monthly translation theorem. -/
theorem monthly_cron_expression_witness :
    toCronExpression monthlySample = .ok "05 00 1 * *" :=
  monthly_cron_expression monthlySample rfl rfl rfl

/-- C8: an unrecognized scheduleType, or an interval schedule with an
unrecognized intervalUnit, makes the cron translation throw, and
registerSchedule therefore throws for such a schedule. -/
theorem unknown_type_or_unit_fails (calcNext : Schedule → Nat → Nat)
    (st : SchedState) (s : Schedule) (now : Nat)
    (h : s.scheduleType ∉
           (["cron", "interval", "daily", "weekly", "monthly"] : List String) ∨
         (s.scheduleType = "interval" ∧
           s.intervalUnit ∉ (["minutes", "hours", "days"] : List String))) :
    (∃ e, toCronExpression s = .error e) ∧
    ∃ e, (registerSchedule calcNext st s now).1 = .error e := by
  have hcron : ∃ e, toCronExpression s = .error e := by
    rcases h with h | ⟨ht, hu⟩
    · simp only [List.mem_cons, List.not_mem_nil, or_false, not_or] at h
      obtain ⟨h1, h2, h3, h4, h5⟩ := h
      exact ⟨"Unknown schedule type: " ++ s.scheduleType,
        by simp [toCronExpression, h1, h2, h3, h4, h5]⟩
    · simp only [List.mem_cons, List.not_mem_nil, or_false, not_or] at hu
      obtain ⟨u1, u2, u3⟩ := hu
      exact ⟨"Unknown interval unit: " ++ s.intervalUnit,
        by simp [toCronExpression, ht, u1, u2, u3]⟩
  obtain ⟨e, he⟩ := hcron
  exact ⟨⟨e, he⟩, ⟨e, by simp [registerSchedule, he]⟩⟩

/-- Concrete run of the unknown-type theorem on a "yearly" schedule. -/
theorem unknown_type_or_unit_fails_witness :
    (∃ e, toCronExpression { sampleSchedule with scheduleType := "yearly" }
        = .error e) ∧
    ∃ e, (registerSchedule calc0 ⟨[], 0, false⟩
        { sampleSchedule with scheduleType := "yearly" } 1).1 = .error e :=
  unknown_type_or_unit_fails calc0 ⟨[], 0, false⟩
    { sampleSchedule with scheduleType := "yearly" } 1 (Or.inl (by decide))

/-- C10: reloading a schedule id that is no longer in the store throws
"Schedule not found" and leaves the trigger map (and the whole scheduler
state) unchanged. -/
theorem reloadSchedule_missing_raises (calcNext : Schedule → Nat → Nat)
    (st : SchedState) (scheduleId : String) (now : Nat) :
    reloadSchedule calcNext st scheduleId none now
      = (.error "Schedule not found", st) := rfl

theorem recordFailure_status (calcNext : Schedule → Nat → Nat) (now : Nat)
    (m : Schedule) (e : String) :
    (recordFailure calcNext now m e).1.lastExecutionStatus = .failed := by
  simp only [recordFailure]
  split <;> rfl

theorem recordFailure_running (calcNext : Schedule → Nat → Nat) (now : Nat)
    (m : Schedule) (e : String) :
    (recordFailure calcNext now m e).1.isCurrentlyRunning = false := by
  simp only [recordFailure]
  split <;> rfl

theorem recordFailure_cf (calcNext : Schedule → Nat → Nat) (now : Nat)
    (m : Schedule) (e : String) :
    (recordFailure calcNext now m e).1.consecutiveFailures
      = m.consecutiveFailures + 1 := by
  simp only [recordFailure]
  split <;> rfl

theorem successUpdate_status (calcNext : Schedule → Nat → Nat) (now : Nat)
    (m : Schedule) :
    (successUpdate calcNext now m).lastExecutionStatus = .success := rfl

theorem successUpdate_running (calcNext : Schedule → Nat → Nat) (now : Nat)
    (m : Schedule) :
    (successUpdate calcNext now m).isCurrentlyRunning = false := rfl

/-- C3: firing a schedule whose record has isCurrentlyRunning=true is a
deliberate no-op: the handler returns normally, the persisted record is
byte-for-byte the one that was read, the flow executor is never invoked
(so no Execution record is created), and the trigger map is untouched. -/
theorem running_schedule_noop (calcNext : Schedule → Nat → Nat) (env : Env)
    (s : Schedule) (hre : env.readError = none) (hst : env.stored = some s)
    (hrun : s.isCurrentlyRunning = true) :
    executeScheduledFlow calcNext env =
      { raised := none, store := some s, executorCalled := false,
        unregistered := false, jobs := env.jobs } := by
  obtain ⟨sid, stored, re, fe, ee, sr, sfin, sfail, jobs, now⟩ := env
  simp only at hre hst ⊢
  subst hre hst
  by_cases he : s.enabled = false <;> simp [executeScheduledFlow, he, hrun]

/-- Concrete run of the concurrency-guard theorem on the sample
schedule marked running. -/
theorem running_schedule_noop_witness :
    executeScheduledFlow calc0
      { sampleEnv with stored := some (markRunning sampleSchedule) } =
      { raised := none, store := some (markRunning sampleSchedule),
        executorCalled := false, unregistered := false,
        jobs := [("s1", 5)] } :=
  running_schedule_noop calc0 _ (markRunning sampleSchedule) rfl rfl rfl

theorem initScheduler_ok_initDone (calcNext : Schedule → Nat → Nat)
    (loaded : List (Schedule × Bool)) (queryError : Option String)
    (st : SchedState) (now : Nat)
    (h : (initScheduler calcNext loaded queryError st now).error = none) :
    (initScheduler calcNext loaded queryError st now).st.initDone = true := by
  by_cases hi : st.initDone
  · simp [initScheduler, hi]
  · simp only [Bool.not_eq_true] at hi
    cases queryError with
    | some e => simp [initScheduler, hi] at h
    | none =>
      cases hr : (registerAll calcNext st loaded now).1 with
      | some e => simp [initScheduler, hi, hr] at h
      | none => simp [initScheduler, hi, hr]

/-- C9: after one completed `initialize()` call, a second call is a
no-op: it performs no store query, attempts no registration, and returns
the scheduler state unchanged. -/
theorem initScheduler_idempotent (calcNext : Schedule → Nat → Nat)
    (loaded : List (Schedule × Bool)) (queryError : Option String)
    (st : SchedState) (now : Nat) (loaded2 : List (Schedule × Bool))
    (queryError2 : Option String) (now2 : Nat)
    (h : (initScheduler calcNext loaded queryError st now).error = none) :
    initScheduler calcNext loaded2 queryError2
        (initScheduler calcNext loaded queryError st now).st now2
      = { error := none,
          st := (initScheduler calcNext loaded queryError st now).st,
          queried := false, registrations := 0 } := by
  have hd := initScheduler_ok_initDone calcNext loaded queryError st now h
  generalize (initScheduler calcNext loaded queryError st now).st = st1 at hd ⊢
  simp [initScheduler, hd]

/-- Concrete run of the idempotence theorem: bootstrap with one sample
schedule, then call again. -/
theorem initScheduler_idempotent_witness :
    initScheduler calc0 [] none
        (initScheduler calc0 [(sampleSchedule, true)] none ⟨[], 0, false⟩ 1).st 2
      = { error := none,
          st := (initScheduler calc0 [(sampleSchedule, true)] none
                  ⟨[], 0, false⟩ 1).st,
          queried := false, registrations := 0 } :=
  initScheduler_idempotent calc0 [(sampleSchedule, true)] none ⟨[], 0, false⟩ 1
    [] none 2 rfl

theorem applyMaxCap_status (m : Schedule) :
    (applyMaxCap m).1.lastExecutionStatus = m.lastExecutionStatus := by
  simp only [applyMaxCap]
  split <;> rfl

theorem applyMaxCap_running (m : Schedule) :
    (applyMaxCap m).1.isCurrentlyRunning = m.isCurrentlyRunning := by
  simp only [applyMaxCap]
  split <;> rfl

theorem fire_raised_none (calcNext : Schedule → Nat → Nat) (env : Env)
    (hsf : env.saveFailError = none) :
    (executeScheduledFlow calcNext env).raised = none := by
  obtain ⟨sid, stored, re, fe, ee, sr, sfin, sfail, jobs, now⟩ := env
  simp only at hsf
  subst hsf
  cases re with
  | some e => rfl
  | none =>
    cases stored with
    | none => rfl
    | some s0 =>
      by_cases he : s0.enabled = false <;>
        by_cases hr : s0.isCurrentlyRunning <;>
        cases sr <;> cases fe <;> cases ee <;> cases sfin <;>
        simp [executeScheduledFlow, catchBranch, he, hr]

theorem fire_outcome_recorded (calcNext : Schedule → Nat → Nat) (env : Env)
    (s : Schedule) (hsf : env.saveFailError = none)
    (hre : env.readError = none) (hst : env.stored = some s)
    (hen : s.enabled = true) (hrun : s.isCurrentlyRunning = false) :
    ∃ s', (executeScheduledFlow calcNext env).store = some s' ∧
      (s'.lastExecutionStatus = .success ∨ s'.lastExecutionStatus = .failed) ∧
      s'.isCurrentlyRunning = false := by
  obtain ⟨sid, stored, re, fe, ee, sr, sfin, sfail, jobs, now⟩ := env
  simp only at hsf hre hst
  subst hsf hre hst
  cases sr <;> cases fe <;> cases ee <;> cases sfin <;>
    simp [executeScheduledFlow, catchBranch, hen, hrun, recordFailure_status,
      recordFailure_running, applyMaxCap_status, applyMaxCap_running,
      successUpdate_status, successUpdate_running]

/-- C1 amended: provided the store save inside the catch block succeeds,
`executeScheduledFlow` returns normally for every behaviour of the store
read, the flow lookup, the executor and the other two saves — and every
firing that reaches the point where the schedule was marked running ends
with a persisted record carrying a success or failure outcome (and the
running flag cleared). -/
theorem executeScheduledFlow_safe (calcNext : Schedule → Nat → Nat)
    (env : Env) (hsf : env.saveFailError = none) :
    (executeScheduledFlow calcNext env).raised = none ∧
    ∀ s, env.readError = none → env.stored = some s → s.enabled = true →
      s.isCurrentlyRunning = false →
      ∃ s', (executeScheduledFlow calcNext env).store = some s' ∧
        (s'.lastExecutionStatus = .success ∨ s'.lastExecutionStatus = .failed) ∧
        s'.isCurrentlyRunning = false :=
  ⟨fire_raised_none calcNext env hsf,
   fun s hre hst hen hrun =>
     fire_outcome_recorded calcNext env s hsf hre hst hen hrun⟩

/-- Concrete run of the amended no-escape theorem: the executor raises
but the failure record is persisted and nothing escapes. -/
theorem executeScheduledFlow_safe_witness :
    ({ sampleEnv with execError := some "boom" } : Env).saveFailError = none ∧
    (executeScheduledFlow calc0
        { sampleEnv with execError := some "boom" }).raised = none ∧
    ∀ s, ({ sampleEnv with execError := some "boom" } : Env).readError = none →
      ({ sampleEnv with execError := some "boom" } : Env).stored = some s →
      s.enabled = true → s.isCurrentlyRunning = false →
      ∃ s', (executeScheduledFlow calc0
          { sampleEnv with execError := some "boom" }).store = some s' ∧
        (s'.lastExecutionStatus = .success ∨ s'.lastExecutionStatus = .failed) ∧
        s'.isCurrentlyRunning = false :=
  ⟨rfl, executeScheduledFlow_safe calc0 { sampleEnv with execError := some "boom" } rfl⟩

/-- C1 counterexample: when the flow executor raises and the save that
records the failure itself raises, the exception escapes the handler and
the persisted record is the marked-running one with no outcome — the
claim that no exception ever escapes for every store behaviour fails. -/
theorem executeScheduledFlow_can_raise_cex :
    (executeScheduledFlow calc0 { sampleEnv with
      execError := some "boom",
      saveFailError := some "db down" }).raised = some "db down" ∧
    (executeScheduledFlow calc0 { sampleEnv with
      execError := some "boom",
      saveFailError := some "db down" }).store.map
        Schedule.lastExecutionStatus = some .unset ∧
    (executeScheduledFlow calc0 { sampleEnv with
      execError := some "boom",
      saveFailError := some "db down" }).store.map
        Schedule.isCurrentlyRunning = some true := by
  refine ⟨rfl, rfl, rfl⟩

/-- C2 amended: when the schedule exists and is enabled but its flow no
longer exists, the handler does NOT silently skip: the missing flow is
thrown inside the try block after the running mark, so the firing is
recorded as a failure — lastExecutionStatus becomes 'failed' and
consecutiveFailures is incremented (a missing or disabled schedule, by
contrast, really is a silent no-op). -/
theorem missing_flow_counts_as_failure (calcNext : Schedule → Nat → Nat)
    (env : Env) (s : Schedule) (hre : env.readError = none)
    (hst : env.stored = some s) (hen : s.enabled = true)
    (hrun : s.isCurrentlyRunning = false) (hfe : env.flowExists = false)
    (hsf : env.saveFailError = none) :
    ∃ s', (executeScheduledFlow calcNext env).store = some s' ∧
      s'.lastExecutionStatus = .failed ∧
      s'.consecutiveFailures = s.consecutiveFailures + 1 := by
  obtain ⟨sid, stored, re, fe, ee, sr, sfin, sfail, jobs, now⟩ := env
  simp only at hre hst hfe hsf
  subst hre hst hfe hsf
  cases sr <;>
    simp [executeScheduledFlow, catchBranch, hen, hrun, recordFailure_status,
      recordFailure_cf, markRunning]

/-- Concrete run of the amended missing-flow theorem. -/
theorem missing_flow_counts_as_failure_witness :
    ∃ s', (executeScheduledFlow calc0
        { sampleEnv with flowExists := false }).store = some s' ∧
      s'.lastExecutionStatus = .failed ∧
      s'.consecutiveFailures = sampleSchedule.consecutiveFailures + 1 :=
  missing_flow_counts_as_failure calc0 { sampleEnv with flowExists := false }
    sampleSchedule rfl rfl rfl rfl rfl rfl

/-- C2 counterexample: with the sample enabled schedule (0 consecutive
failures, no status) whose flow is missing and a store whose saves
succeed, the firing mutates the schedule: status becomes 'failed' and
consecutiveFailures becomes 1, contradicting "log and return with no
state change". -/
theorem missing_flow_records_failure_cex :
    sampleSchedule.lastExecutionStatus = .unset ∧
    sampleSchedule.consecutiveFailures = 0 ∧
    sampleSchedule.enabled = true ∧
    (executeScheduledFlow calc0
      { sampleEnv with flowExists := false }).store.map
        Schedule.lastExecutionStatus = some .failed ∧
    (executeScheduledFlow calc0
      { sampleEnv with flowExists := false }).store.map
        Schedule.consecutiveFailures = some 1 := by
  refine ⟨rfl, rfl, rfl, rfl, rfl⟩

theorem pausedMsg_ne_empty (q : String) : ("Paused after " ++ q) ≠ "" := by
  intro h
  have h2 := congrArg String.length h
  rw [String.length_append] at h2
  have h3 : String.length "Paused after " = 13 := rfl
  have h4 : String.length "" = 0 := rfl
  omega

theorem catchBranch_policy (calcNext : Schedule → Nat → Nat) (env : Env)
    (s : Schedule) (errMsg : String) (db : Option Schedule) (ec : Bool)
    (hsf : env.saveFailError = none) (hen : s.enabled = true) :
    ∃ s', (catchBranch calcNext env (markRunning s) errMsg db ec false).store
        = some s' ∧
      s'.lastExecutionStatus = .failed ∧
      s'.consecutiveFailures = s.consecutiveFailures + 1 ∧
      (3 ≤ s.consecutiveFailures + 1 →
        s'.enabled = false ∧
        (∃ p, s'.pausedReason = some p ∧ p ≠ "") ∧
        (catchBranch calcNext env (markRunning s) errMsg db ec false).unregistered
          = true ∧
        countId (catchBranch calcNext env (markRunning s) errMsg db ec false).jobs
          env.scheduleId = 0) ∧
      (s.consecutiveFailures + 1 < 3 →
        s'.enabled = true ∧
        s'.nextExecutionAt
          = some (calcNext (failedUpdate env.now (markRunning s)) env.now) ∧
        s'.scheduleType = s.scheduleType ∧ s'.cronExpression = s.cronExpression ∧
        s'.intervalValue = s.intervalValue ∧ s'.intervalUnit = s.intervalUnit ∧
        s'.time = s.time ∧ s'.daysOfWeek = s.daysOfWeek ∧
        s'.dayOfMonth = s.dayOfMonth ∧ s'.timezone = s.timezone ∧
        (catchBranch calcNext env (markRunning s) errMsg db ec false).unregistered
          = false ∧
        (catchBranch calcNext env (markRunning s) errMsg db ec false).jobs
          = env.jobs) := by
  obtain ⟨sid, stored, re, fe, ee, sr, sfin, sfail, jobs, now⟩ := env
  simp only at hsf ⊢
  subst hsf
  by_cases h3 : 3 ≤ s.consecutiveFailures + 1
  · have hrec : recordFailure calcNext now (markRunning s) errMsg =
        ({ failedUpdate now (markRunning s) with
           enabled := false,
           pausedReason := some ("Paused after "
             ++ toString (s.consecutiveFailures + 1)
             ++ " consecutive failures: " ++ errMsg) }, true) := by
      simp only [recordFailure]
      rw [if_pos (show 3 ≤ (failedUpdate now (markRunning s)).consecutiveFailures
        from h3)]
      rfl
    simp only [catchBranch, hrec]
    refine ⟨_, rfl, rfl, rfl,
      fun _ => ⟨rfl, ⟨_, rfl, pausedMsg_ne_empty _⟩, rfl,
        countId_unregisterSchedule jobs sid⟩,
      fun hlt => absurd h3 (Nat.not_le.mpr hlt)⟩
  · have hrec : recordFailure calcNext now (markRunning s) errMsg =
        ({ failedUpdate now (markRunning s) with
           nextExecutionAt
             := some (calcNext (failedUpdate now (markRunning s)) now) }, false) := by
      simp only [recordFailure]
      rw [if_neg (show ¬ 3 ≤ (failedUpdate now (markRunning s)).consecutiveFailures
        from h3)]
    simp only [catchBranch, hrec]
    refine ⟨_, rfl, rfl, rfl, fun hge => absurd hge h3,
      fun _ => ⟨hen, rfl, rfl, rfl, rfl, rfl, rfl, rfl, rfl, rfl, ?_, ?_⟩⟩
    · simp
    · simp

/-- C4: after a failed firing (the run itself failed: the mark-running
save raised, the flow was missing, or the executor raised) whose failure
record persists, the schedule carries status 'failed' with
consecutiveFailures incremented; when that brings the count to 3 or
more, the schedule is disabled with a non-empty pausedReason and its
live trigger is removed from the map; below 3 it stays enabled, its
cadence fields are unchanged, nextExecutionAt is recomputed by the
calculator on the failure-stamped record, and the trigger map is
untouched. -/
theorem failed_firing_policy (calcNext : Schedule → Nat → Nat) (env : Env)
    (s : Schedule) (hre : env.readError = none) (hst : env.stored = some s)
    (hen : s.enabled = true) (hrun : s.isCurrentlyRunning = false)
    (hfail : env.saveRunError ≠ none ∨ env.flowExists = false ∨
      env.execError ≠ none)
    (hsf : env.saveFailError = none) :
    ∃ s', (executeScheduledFlow calcNext env).store = some s' ∧
      s'.lastExecutionStatus = .failed ∧
      s'.consecutiveFailures = s.consecutiveFailures + 1 ∧
      (3 ≤ s.consecutiveFailures + 1 →
        s'.enabled = false ∧
        (∃ p, s'.pausedReason = some p ∧ p ≠ "") ∧
        (executeScheduledFlow calcNext env).unregistered = true ∧
        countId (executeScheduledFlow calcNext env).jobs env.scheduleId = 0) ∧
      (s.consecutiveFailures + 1 < 3 →
        s'.enabled = true ∧
        s'.nextExecutionAt
          = some (calcNext (failedUpdate env.now (markRunning s)) env.now) ∧
        s'.scheduleType = s.scheduleType ∧ s'.cronExpression = s.cronExpression ∧
        s'.intervalValue = s.intervalValue ∧ s'.intervalUnit = s.intervalUnit ∧
        s'.time = s.time ∧ s'.daysOfWeek = s.daysOfWeek ∧
        s'.dayOfMonth = s.dayOfMonth ∧ s'.timezone = s.timezone ∧
        (executeScheduledFlow calcNext env).unregistered = false ∧
        (executeScheduledFlow calcNext env).jobs = env.jobs) := by
  obtain ⟨sid, stored, re, fe, ee, sr, sfin, sfail, jobs, now⟩ := env
  simp only at hre hst hsf hfail ⊢
  subst hre hst hsf
  cases sr with
  | some e =>
    have heq : executeScheduledFlow calcNext
        ⟨sid, some s, none, fe, ee, some e, sfin, none, jobs, now⟩
        = catchBranch calcNext
            ⟨sid, some s, none, fe, ee, some e, sfin, none, jobs, now⟩
            (markRunning s) e (some s) false false := by
      simp [executeScheduledFlow, hen, hrun]
    rw [heq]
    exact catchBranch_policy calcNext _ s e (some s) false rfl hen
  | none =>
    cases fe with
    | false =>
      have heq : executeScheduledFlow calcNext
          ⟨sid, some s, none, false, ee, none, sfin, none, jobs, now⟩
          = catchBranch calcNext
              ⟨sid, some s, none, false, ee, none, sfin, none, jobs, now⟩
              (markRunning s) "Flow not found" (some (markRunning s))
              false false := by
        simp [executeScheduledFlow, hen, hrun]
      rw [heq]
      exact catchBranch_policy calcNext _ s "Flow not found"
        (some (markRunning s)) false rfl hen
    | true =>
      cases ee with
      | some e =>
        have heq : executeScheduledFlow calcNext
            ⟨sid, some s, none, true, some e, none, sfin, none, jobs, now⟩
            = catchBranch calcNext
                ⟨sid, some s, none, true, some e, none, sfin, none, jobs, now⟩
                (markRunning s) e (some (markRunning s)) true false := by
          simp [executeScheduledFlow, hen, hrun]
        rw [heq]
        exact catchBranch_policy calcNext _ s e (some (markRunning s)) true
          rfl hen
      | none =>
        rcases hfail with h | h | h <;> simp at h

/-- A firing environment whose executor raises, for the failure-policy
witness. -/
def envC4 : Env := { sampleEnv with execError := some "kaboom" }

/-- Concrete run of the failure-policy theorem: the sample schedule
(0 prior failures) fails once, stays enabled and gets a recomputed
nextExecutionAt. -/
theorem failed_firing_policy_witness :
    ∃ s', (executeScheduledFlow calc0 envC4).store = some s' ∧
      s'.lastExecutionStatus = .failed ∧
      s'.consecutiveFailures = sampleSchedule.consecutiveFailures + 1 ∧
      (3 ≤ sampleSchedule.consecutiveFailures + 1 →
        s'.enabled = false ∧
        (∃ p, s'.pausedReason = some p ∧ p ≠ "") ∧
        (executeScheduledFlow calc0 envC4).unregistered = true ∧
        countId (executeScheduledFlow calc0 envC4).jobs envC4.scheduleId = 0) ∧
      (sampleSchedule.consecutiveFailures + 1 < 3 →
        s'.enabled = true ∧
        s'.nextExecutionAt = some (calc0
          (failedUpdate envC4.now (markRunning sampleSchedule)) envC4.now) ∧
        s'.scheduleType = sampleSchedule.scheduleType ∧
        s'.cronExpression = sampleSchedule.cronExpression ∧
        s'.intervalValue = sampleSchedule.intervalValue ∧
        s'.intervalUnit = sampleSchedule.intervalUnit ∧
        s'.time = sampleSchedule.time ∧
        s'.daysOfWeek = sampleSchedule.daysOfWeek ∧
        s'.dayOfMonth = sampleSchedule.dayOfMonth ∧
        s'.timezone = sampleSchedule.timezone ∧
        (executeScheduledFlow calc0 envC4).unregistered = false ∧
        (executeScheduledFlow calc0 envC4).jobs = envC4.jobs) :=
  failed_firing_policy calc0 envC4 sampleSchedule rfl rfl rfl rfl
    (Or.inr (Or.inr (by decide))) rfl

/-- C5 amended: after a successful firing of a schedule whose
maxExecutions is set to a NONZERO cap, if the incremented executionCount
reaches the cap the persisted schedule is disabled with pausedReason
"Max executions reached" and its live trigger is removed from the map,
so no further scheduled firing occurs.  (A cap of 0 is falsy in the
source's `schedule.maxExecutions && ...` guard and never pauses — see
the counterexample.) -/
theorem maxExecutions_pause (calcNext : Schedule → Nat → Nat) (env : Env)
    (s : Schedule) (mx : Nat) (hre : env.readError = none)
    (hst : env.stored = some s) (hen : s.enabled = true)
    (hrun : s.isCurrentlyRunning = false) (hfe : env.flowExists = true)
    (hee : env.execError = none) (hsr : env.saveRunError = none)
    (hsfin : env.saveFinalError = none) (hmax : s.maxExecutions = some mx)
    (hmx : mx ≠ 0) (hcount : mx ≤ s.executionCount + 1) :
    ∃ s', (executeScheduledFlow calcNext env).store = some s' ∧
      s'.enabled = false ∧
      s'.pausedReason = some "Max executions reached" ∧
      s'.lastExecutionStatus = .success ∧
      s'.executionCount = s.executionCount + 1 ∧
      (executeScheduledFlow calcNext env).unregistered = true ∧
      countId (executeScheduledFlow calcNext env).jobs env.scheduleId = 0 := by
  obtain ⟨sid, stored, re, fe, ee, sr, sfin, sfail, jobs, now⟩ := env
  simp only at hre hst hfe hee hsr hsfin ⊢
  subst hre hst hfe hee hsr hsfin
  have hm2max : (successUpdate calcNext now (markRunning s)).maxExecutions
      = some mx := hmax
  have hm2cnt : (successUpdate calcNext now (markRunning s)).executionCount
      = s.executionCount + 1 := rfl
  have hhit : hitMaxExecutions (successUpdate calcNext now (markRunning s))
      = true := by
    simp [hitMaxExecutions, hm2max, hm2cnt, hmx, hcount, bne_iff_ne]
  have happ : applyMaxCap (successUpdate calcNext now (markRunning s)) =
      ({ successUpdate calcNext now (markRunning s) with
         enabled := false,
         pausedReason := some "Max executions reached" }, true) := by
    simp [applyMaxCap, hhit]
  have heq : executeScheduledFlow calcNext
      ⟨sid, some s, none, true, none, none, none, sfail, jobs, now⟩
      = { raised := none,
          store := some (applyMaxCap (successUpdate calcNext now
            (markRunning s))).1,
          executorCalled := true,
          unregistered := (applyMaxCap (successUpdate calcNext now
            (markRunning s))).2,
          jobs := if (applyMaxCap (successUpdate calcNext now
              (markRunning s))).2 then
            unregisterSchedule jobs sid else jobs } := by
    simp [executeScheduledFlow, hen, hrun]
  rw [heq, happ]
  exact ⟨_, rfl, rfl, rfl, rfl, rfl, rfl,
    countId_unregisterSchedule jobs sid⟩

/-- A successful firing environment whose schedule caps at one
execution, for the max-executions witness. -/
def envC5 : Env :=
  { sampleEnv with stored := some { sampleSchedule with maxExecutions := some 1 } }

/-- Concrete run of the max-executions theorem: cap 1 is reached on the
first success and the schedule is paused and unregistered. -/
theorem maxExecutions_pause_witness :
    ∃ s', (executeScheduledFlow calc0 envC5).store = some s' ∧
      s'.enabled = false ∧
      s'.pausedReason = some "Max executions reached" ∧
      s'.lastExecutionStatus = .success ∧
      s'.executionCount
        = ({ sampleSchedule with maxExecutions := some 1 } : Schedule).executionCount + 1 ∧
      (executeScheduledFlow calc0 envC5).unregistered = true ∧
      countId (executeScheduledFlow calc0 envC5).jobs envC5.scheduleId = 0 :=
  maxExecutions_pause calc0 envC5 { sampleSchedule with maxExecutions := some 1 }
    1 rfl rfl rfl rfl rfl rfl rfl rfl rfl (by decide) (by decide)

/-- A successful firing environment whose schedule has maxExecutions
set to 0. -/
def envC5zero : Env :=
  { sampleEnv with stored := some { sampleSchedule with maxExecutions := some 0 } }

/-- C5 counterexample: with maxExecutions set to 0 the incremented
executionCount (1) is ≥ the cap (0), yet the firing leaves the schedule
enabled with no pausedReason and its trigger registered — because the
source guards the cap check with the falsy `schedule.maxExecutions`. -/
theorem maxExecutions_zero_not_paused_cex :
    ({ sampleSchedule with maxExecutions := some 0 } : Schedule).maxExecutions
      = some 0 ∧
    (0 : Nat) ≤ ({ sampleSchedule with maxExecutions := some 0 } :
      Schedule).executionCount + 1 ∧
    (executeScheduledFlow calc0 envC5zero).store.map Schedule.enabled
      = some true ∧
    (executeScheduledFlow calc0 envC5zero).store.map Schedule.pausedReason
      = some none ∧
    (executeScheduledFlow calc0 envC5zero).unregistered = false ∧
    (executeScheduledFlow calc0 envC5zero).jobs = [("s1", 5)] :=
  ⟨rfl, Nat.zero_le _, rfl, rfl, rfl, rfl⟩
